import Mathlib

/-!
Shallow embedding of the double-ratchet session engine (`class SecureCrypto`)
of the gizli-secure-messenger repository, together with proofs about the
specification claims.

Byte buffers (JS `Uint8Array`) are lists of naturals.  The external
cryptographic primitives the class imports from `libsodium-wrappers`,
`@noble/curves`, `@noble/ciphers` and `@noble/hashes` are not part of the
repository sources, so they are parameters of the model, collected in the
`CryptoPrims` structure.  Random inputs produced by `randomBytes` inside a
method (ephemeral secret keys, nonces, session identifiers) are passed to the
corresponding model function as explicit oracle arguments.  The JS
`Map<string, SecureSessionState>` is an association list with set/delete
semantics; a thrown JS exception is an `Except.error`, and every operation
that can mutate the session map before a later throw returns the (possibly
mutated) map alongside the result, mirroring in-place reference mutation.
-/

namespace Gizli

/-- A byte buffer (`Uint8Array`); entries are the byte values. -/
abbrev Bytes := List Nat

/-- `new Uint8Array(n)`: n zero bytes. -/
def zeros (n : Nat) : Bytes := List.replicate n 0

/-- `interface KeyPair` from the source. -/
structure KeyPair where
  publicKey : Bytes
  secretKey : Bytes
  deriving DecidableEq

/-- `interface EncryptedMessage` from the source. -/
structure EncryptedMessage where
  ciphertext : Bytes
  nonce : Bytes
  ephemeralPublicKey : Bytes
  mac : Bytes
  deriving DecidableEq

/-- `interface SecureSessionState` from the source. -/
structure SecureSessionState where
  sendingChainKey : Bytes
  receivingChainKey : Bytes
  rootKey : Bytes
  sendingRatchetKey : KeyPair
  receivingRatchetKey : Option Bytes
  messageNumber : Nat
  previousChainLength : Nat
  deriving DecidableEq

/-- The external library primitives used by `SecureCrypto`.  Their sources
live in npm packages, not in this repository, so the model abstracts them as
function parameters:
* `hkdfSha256 ikm salt info len` is `hkdf(sha256, ikm, salt, info, len)`;
* `sha256Hash` is `sha256` from `@noble/hashes`;
* `x25519PublicKey` is `x25519.getPublicKey`;
* `x25519SharedSecret` is `x25519.getSharedSecret`;
* `chachaEncrypt key nonce pt` is `chacha20poly1305(key, nonce).encrypt(pt)`;
* `chachaDecrypt key nonce ct` is `chacha20poly1305(key, nonce).decrypt(ct)`,
  returning `none` when the cipher throws on AEAD tag mismatch;
* `utf8Encode` / `utf8Decode` are `TextEncoder.encode` / `TextDecoder.decode`. -/
structure CryptoPrims where
  hkdfSha256 : Bytes → Bytes → String → Nat → Bytes
  sha256Hash : Bytes → Bytes
  x25519PublicKey : Bytes → Bytes
  x25519SharedSecret : Bytes → Bytes → Bytes
  chachaEncrypt : Bytes → Bytes → Bytes → Bytes
  chachaDecrypt : Bytes → Bytes → Bytes → Option Bytes
  utf8Encode : String → Bytes
  utf8Decode : Bytes → String

/-- The `private sessionStates = new Map<string, SecureSessionState>()` field,
as an association list without duplicate keys. -/
abbrev Registry := List (String × SecureSessionState)

/-- `this.sessionStates.get(sessionId)`. -/
def lookupSession : Registry → String → Option SecureSessionState
  | [], _ => none
  | e :: t, sessionId => if e.1 = sessionId then some e.2 else lookupSession t sessionId

/-- `this.sessionStates.delete(sessionId)`. -/
def removeSession : Registry → String → Registry
  | [], _ => []
  | e :: t, sessionId =>
      if e.1 = sessionId then removeSession t sessionId
      else e :: removeSession t sessionId

/-- `this.sessionStates.set(sessionId, st)`. -/
def setSession (reg : Registry) (sessionId : String) (st : SecureSessionState) : Registry :=
  (sessionId, st) :: removeSession reg sessionId

theorem lookupSession_setSession_self (reg : Registry) (sid : String) (st : SecureSessionState) :
    lookupSession (setSession reg sid st) sid = some st := by
  simp [lookupSession, setSession]

theorem lookupSession_removeSession_self (reg : Registry) (sid : String) :
    lookupSession (removeSession reg sid) sid = none := by
  induction reg with
  | nil => rfl
  | cons e t ih =>
    by_cases h : e.1 = sid
    · simpa [removeSession, h] using ih
    · simpa [removeSession, lookupSession, h] using ih

theorem lookupSession_removeSession_ne (reg : Registry) (sid sid' : String)
    (h : sid' ≠ sid) :
    lookupSession (removeSession reg sid) sid' = lookupSession reg sid' := by
  induction reg with
  | nil => rfl
  | cons e t ih =>
    by_cases he : e.1 = sid
    · have hne : sid ≠ sid' := fun hc => h hc.symm
      simpa [removeSession, lookupSession, he, hne] using ih
    · by_cases he' : e.1 = sid'
      · simp [removeSession, lookupSession, he, he', h]
      · simpa [removeSession, lookupSession, he, he'] using ih

theorem lookupSession_setSession_ne (reg : Registry) (sid sid' : String)
    (st : SecureSessionState) (h : sid' ≠ sid) :
    lookupSession (setSession reg sid st) sid' = lookupSession reg sid' := by
  have hne : sid ≠ sid' := fun hc => h hc.symm
  simp only [lookupSession, setSession, hne, if_false]
  exact lookupSession_removeSession_ne reg sid sid' h

/-- `deriveKeys(inputKeyMaterial, salt, info, length = 32, version = 1)`:
builds `versionedInfo` and calls `hkdf(sha256, inputKeyMaterial, salt,
versionedInfo, length)`. -/
def deriveKeys (C : CryptoPrims) (inputKeyMaterial salt : Bytes) (info : String)
    (length version : Nat) : Bytes :=
  C.hkdfSha256 inputKeyMaterial salt ("Gizli-v" ++ toString version ++ "-" ++ info) length

/-- `deriveSharedSecret(ourSecretKey, theirPublicKey)`: a direct call to
`x25519.getSharedSecret`. -/
def deriveSharedSecret (C : CryptoPrims) (ourSecretKey theirPublicKey : Bytes) : Bytes :=
  C.x25519SharedSecret ourSecretKey theirPublicKey

/-- Modelled from the spec: `x25519.getSharedSecret` of the external
`@noble/curves` package, whose source is not part of this repository.  Per the
spec (§4.3), X25519 scalar multiplication fails with `InvalidPublicKeyError`
whenever the raw scalar-multiplication output is the all-zero 32-byte string
(a low-order / invalid public key), and otherwise returns that output.
`raw` is the raw scalar-multiplication function. -/
def x25519GetSharedSecretChecked (raw : Bytes → Bytes → Bytes) (sk pk : Bytes) :
    Except String Bytes :=
  if raw sk pk = zeros 32 then Except.error "InvalidPublicKeyError"
  else Except.ok (raw sk pk)

/-- `deriveSharedSecret` with the library call modelled as
`x25519GetSharedSecretChecked` (see its doc comment): the repository function
forwards its two arguments to the library and adds no checks of its own. -/
def deriveSharedSecretChecked (raw : Bytes → Bytes → Bytes)
    (ourSecretKey theirPublicKey : Bytes) : Except String Bytes :=
  x25519GetSharedSecretChecked raw ourSecretKey theirPublicKey

/-- `generateKeyPair()`: `secretKey = randomBytes(32)` (passed in as the
oracle argument), `publicKey = x25519.getPublicKey(secretKey)`. -/
def generateKeyPair (C : CryptoPrims) (secretKey : Bytes) : KeyPair :=
  { publicKey := C.x25519PublicKey secretKey, secretKey := secretKey }

/-- `constantTimeEqual(a, b)`: returns `false` on length mismatch, otherwise
ORs together the XORs of all byte pairs and compares the accumulator with 0
(the manual fallback loop; the `sodium.memcmp` fast path computes the same
byte-equality predicate). -/
def constantTimeEqual (a b : Bytes) : Bool :=
  if a.length ≠ b.length then false
  else ((List.zipWith (fun x y => x ^^^ y) a b).foldl (fun result v => result ||| v) 0) == 0

/-- `initializeSession(sharedSecret, ourRatchetKey, theirRatchetKey?)`.
`sessionId` is `sodium.to_hex(randomBytes(16))`, passed as the oracle
argument.  Derives the root key, then either the receiving chain (responder:
`theirRatchetKey` present) or the sending chain (initiator), the other chain
key starting as 32 zero bytes, and registers the new state. -/
def initializeSession (C : CryptoPrims) (reg : Registry) (sessionId : String)
    (sharedSecret : Bytes) (ourRatchetKey : KeyPair) (theirRatchetKey : Option Bytes) :
    String × Registry :=
  let rootKey := deriveKeys C sharedSecret (zeros 32) "RootKey" 32 1
  match theirRatchetKey with
  | some theirKey =>
      let dh := deriveSharedSecret C ourRatchetKey.secretKey theirKey
      let receivingChainKey := deriveKeys C rootKey dh "ChainKey" 32 1
      let sendingChainKey := zeros 32
      (sessionId, setSession reg sessionId
        { sendingChainKey := sendingChainKey
          receivingChainKey := receivingChainKey
          rootKey := rootKey
          sendingRatchetKey := ourRatchetKey
          receivingRatchetKey := some theirKey
          messageNumber := 0
          previousChainLength := 0 })
  | none =>
      let sendingChainKey := deriveKeys C rootKey (zeros 32) "ChainKey" 32 1
      let receivingChainKey := zeros 32
      (sessionId, setSession reg sessionId
        { sendingChainKey := sendingChainKey
          receivingChainKey := receivingChainKey
          rootKey := rootKey
          sendingRatchetKey := ourRatchetKey
          receivingRatchetKey := none
          messageNumber := 0
          previousChainLength := 0 })

/-- The message key derived by `encryptMessage` from a session state:
`this.deriveKeys(session.sendingChainKey, new Uint8Array(1), 'MessageKey')`. -/
def encryptionMessageKey (C : CryptoPrims) (s : SecureSessionState) : Bytes :=
  deriveKeys C s.sendingChainKey [0] "MessageKey" 32 1

/-- `encryptMessage(sessionId, plaintext)`.  The ephemeral secret key and the
12-byte nonce produced by `randomBytes` are oracle arguments.  Throws
`'Session not found'` on a missing session; otherwise derives the message key
from the sending chain key, advances the chain key and the message counter,
encrypts with ChaCha20-Poly1305 and appends the truncated SHA-256 MAC.
(`secureZero(messageKey)` wipes a local buffer and has no observable effect
in the value model.) -/
def encryptMessage (C : CryptoPrims) (reg : Registry) (sessionId : String)
    (plaintext : String) (ephemeralSecret nonce : Bytes) :
    Except String EncryptedMessage × Registry :=
  match lookupSession reg sessionId with
  | none => (Except.error "Session not found", reg)
  | some session =>
      let ephemeralKeyPair := generateKeyPair C ephemeralSecret
      let messageKey := deriveKeys C session.sendingChainKey [0] "MessageKey" 32 1
      let session' := { session with
        sendingChainKey := deriveKeys C session.sendingChainKey [0] "ChainKeyNext" 32 1
        messageNumber := session.messageNumber + 1 }
      let ciphertext := C.chachaEncrypt messageKey nonce (C.utf8Encode plaintext)
      let mac := C.sha256Hash (ciphertext ++ nonce ++ ephemeralKeyPair.publicKey)
      (Except.ok
        { ciphertext := ciphertext
          nonce := nonce
          ephemeralPublicKey := ephemeralKeyPair.publicKey
          mac := mac.take 16 },
       setSession reg sessionId session')

/-- `decryptMessage(sessionId, encryptedMessage)`.  Throws
`'Session not found'` on a missing session; verifies the truncated outer MAC
first and throws `'MAC verification failed'` on mismatch *before* touching any
key material; otherwise derives the message key, advances the receiving chain
key (an in-place mutation of the stored session, so it persists even when the
AEAD decryption below throws — hence the updated registry is returned
alongside the AEAD error), and decrypts.  The AEAD tag-mismatch throw of
`chacha20poly1305(...).decrypt` is modelled as `'Decryption failed'`. -/
def decryptMessage (C : CryptoPrims) (reg : Registry) (sessionId : String)
    (msg : EncryptedMessage) : Except String String × Registry :=
  match lookupSession reg sessionId with
  | none => (Except.error "Session not found", reg)
  | some session =>
      let expectedMac := C.sha256Hash (msg.ciphertext ++ msg.nonce ++ msg.ephemeralPublicKey)
      if constantTimeEqual msg.mac (expectedMac.take 16) then
        let messageKey := deriveKeys C session.receivingChainKey [0] "MessageKey" 32 1
        let session' := { session with
          receivingChainKey := deriveKeys C session.receivingChainKey [0] "ChainKeyNext" 32 1 }
        let reg' := setSession reg sessionId session'
        match C.chachaDecrypt messageKey msg.nonce msg.ciphertext with
        | none => (Except.error "Decryption failed", reg')
        | some decrypted => (Except.ok (C.utf8Decode decrypted), reg')
      else (Except.error "MAC verification failed", reg)

/-- `performDHRatchet(sessionId, theirNewRatchetKey)`.  The secret key of the
freshly generated ratchet key pair is the oracle argument `newRatchetSecret`.
Wipes the old secrets (local buffer effect), then replaces root key, sending
chain key, ratchet key pair and peer ratchet key, and resets the message
counter. -/
def performDHRatchet (C : CryptoPrims) (reg : Registry) (sessionId : String)
    (theirNewRatchetKey newRatchetSecret : Bytes) :
    Except String Unit × Registry :=
  match lookupSession reg sessionId with
  | none => (Except.error "Session not found", reg)
  | some session =>
      let newRatchetKey := generateKeyPair C newRatchetSecret
      let dh := deriveSharedSecret C newRatchetKey.secretKey theirNewRatchetKey
      let newRootKey := deriveKeys C session.rootKey dh "RootKeyNext" 32 1
      let newSendingChainKey := deriveKeys C newRootKey (zeros 32) "ChainKey" 32 1
      (Except.ok (),
       setSession reg sessionId
        { session with
          rootKey := newRootKey
          sendingChainKey := newSendingChainKey
          sendingRatchetKey := newRatchetKey
          receivingRatchetKey := some theirNewRatchetKey
          messageNumber := 0 })

/-- `clearSession(sessionId)`: wipes every secret buffer of the session (a
local-buffer effect in the value model) and deletes the registry entry; a
missing session is a no-op. -/
def clearSession (reg : Registry) (sessionId : String) : Registry :=
  removeSession reg sessionId

/-- `clearSession` in a world where `secureZero` (i.e. `sodium.memzero`) may
throw: `wipeThrows sessionId` says whether wiping that session's buffers
throws.  `clearSession` has no try/catch, so a throw propagates before
`sessionStates.delete` runs and the entry is retained. -/
def clearSessionF (wipeThrows : String → Bool) (reg : Registry) (sessionId : String) :
    Except String Unit × Registry :=
  match lookupSession reg sessionId with
  | none => (Except.ok (), reg)
  | some _ =>
      if wipeThrows sessionId then (Except.error "memzero failed", reg)
      else (Except.ok (), removeSession reg sessionId)

/-- The `for (const sessionId of this.sessionStates.keys())` loop of
`emergencyPanic`, followed by `this.sessionStates.clear()`.  `emergencyPanic`
has no try/catch, so the first throwing `clearSession` aborts the loop and
`clear()` is never reached. -/
def panicLoop (wipeThrows : String → Bool) : List String → Registry →
    Except String Unit × Registry
  | [], _ => (Except.ok (), [])
  | sessionId :: rest, reg =>
      match clearSessionF wipeThrows reg sessionId with
      | (Except.error e, reg') => (Except.error e, reg')
      | (Except.ok _, reg') => panicLoop wipeThrows rest reg'

/-- `emergencyPanic()`: iterates `clearSession` over all registered session
identifiers and then clears the map.  (The trailing `gc()` calls and console
logging have no effect on the session registry.) -/
def emergencyPanic (wipeThrows : String → Bool) (reg : Registry) :
    Except String Unit × Registry :=
  panicLoop wipeThrows (reg.map Prod.fst) reg

theorem nat_or_eq_zero (a b : Nat) : a ||| b = 0 ↔ a = 0 ∧ b = 0 := by
  constructor
  · intro h
    have hbit : ∀ i, a.testBit i = false ∧ b.testBit i = false := by
      intro i
      have hc := congrArg (fun n => Nat.testBit n i) h
      simpa [Nat.testBit_or] using hc
    constructor
    · exact Nat.eq_of_testBit_eq fun i => by simp [(hbit i).1]
    · exact Nat.eq_of_testBit_eq fun i => by simp [(hbit i).2]
  · rintro ⟨rfl, rfl⟩
    rfl

theorem or_foldl_eq_zero (l : List Nat) (acc : Nat) :
    l.foldl (fun result v => result ||| v) acc = 0 ↔ acc = 0 ∧ ∀ x ∈ l, x = 0 := by
  induction l generalizing acc with
  | nil => simp
  | cons h t ih =>
    simp only [List.foldl_cons, ih, nat_or_eq_zero, List.mem_cons]
    constructor
    · rintro ⟨⟨ha, hh⟩, hall⟩
      exact ⟨ha, fun x hx => hx.elim (fun hx => hx ▸ hh) (hall x)⟩
    · rintro ⟨ha, hall⟩
      exact ⟨⟨ha, hall h (Or.inl rfl)⟩, fun x hx => hall x (Or.inr hx)⟩

theorem zipWith_xor_eq_zero (a b : Bytes) (hlen : a.length = b.length) :
    (∀ x ∈ List.zipWith (fun x y => x ^^^ y) a b, x = 0) ↔ a = b := by
  induction a generalizing b with
  | nil =>
    cases b with
    | nil => simp
    | cons hb tb => simp at hlen
  | cons ha ta ih =>
    cases b with
    | nil => simp at hlen
    | cons hb tb =>
      have hlen' : ta.length = tb.length := by simpa using hlen
      simp only [List.zipWith_cons_cons, List.forall_mem_cons, Nat.xor_eq_zero,
        ih tb hlen', List.cons.injEq]

theorem constantTimeEqual_eq_true_iff (a b : Bytes) :
    constantTimeEqual a b = true ↔ a = b := by
  unfold constantTimeEqual
  by_cases hlen : a.length = b.length
  · simp only [hlen, ne_eq, not_true_eq_false, if_false, beq_iff_eq,
      or_foldl_eq_zero, zipWith_xor_eq_zero a b hlen]
    simp
  · have hne : a ≠ b := fun hc => hlen (hc ▸ rfl)
    simp [hlen, hne]

/-- The session state stored by `initializeSession` when `theirRatchetKey` is
absent (we are the initiator). -/
def initiatorState (C : CryptoPrims) (S : Bytes) (kp : KeyPair) : SecureSessionState where
  sendingChainKey :=
    deriveKeys C (deriveKeys C S (zeros 32) "RootKey" 32 1) (zeros 32) "ChainKey" 32 1
  receivingChainKey := zeros 32
  rootKey := deriveKeys C S (zeros 32) "RootKey" 32 1
  sendingRatchetKey := kp
  receivingRatchetKey := none
  messageNumber := 0
  previousChainLength := 0

/-- The session state stored by `initializeSession` when `theirRatchetKey` is
present (we are the responder). -/
def responderState (C : CryptoPrims) (S : Bytes) (kp : KeyPair) (theirKey : Bytes) :
    SecureSessionState where
  sendingChainKey := zeros 32
  receivingChainKey :=
    deriveKeys C (deriveKeys C S (zeros 32) "RootKey" 32 1)
      (C.x25519SharedSecret kp.secretKey theirKey) "ChainKey" 32 1
  rootKey := deriveKeys C S (zeros 32) "RootKey" 32 1
  sendingRatchetKey := kp
  receivingRatchetKey := some theirKey
  messageNumber := 0
  previousChainLength := 0

theorem initializeSession_none (C : CryptoPrims) (reg : Registry) (sid : String)
    (S : Bytes) (kp : KeyPair) :
    initializeSession C reg sid S kp none =
      (sid, setSession reg sid (initiatorState C S kp)) := rfl

theorem initializeSession_some (C : CryptoPrims) (reg : Registry) (sid : String)
    (S : Bytes) (kp : KeyPair) (theirKey : Bytes) :
    initializeSession C reg sid S kp (some theirKey) =
      (sid, setSession reg sid (responderState C S kp theirKey)) := rfl

theorem encryptMessage_of_lookup (C : CryptoPrims) (reg : Registry) (sid : String)
    (s : SecureSessionState) (pt : String) (e n : Bytes)
    (h : lookupSession reg sid = some s) :
    encryptMessage C reg sid pt e n =
      (Except.ok
        { ciphertext := C.chachaEncrypt (encryptionMessageKey C s) n (C.utf8Encode pt)
          nonce := n
          ephemeralPublicKey := C.x25519PublicKey e
          mac := (C.sha256Hash
            (C.chachaEncrypt (encryptionMessageKey C s) n (C.utf8Encode pt) ++ n ++
              C.x25519PublicKey e)).take 16 },
       setSession reg sid
        { s with
          sendingChainKey := deriveKeys C s.sendingChainKey [0] "ChainKeyNext" 32 1
          messageNumber := s.messageNumber + 1 }) := by
  unfold encryptMessage
  rw [h]
  rfl

theorem decryptMessage_of_mac_mismatch (C : CryptoPrims) (reg : Registry) (sid : String)
    (s : SecureSessionState) (msg : EncryptedMessage)
    (h : lookupSession reg sid = some s)
    (hmac : msg.mac ≠
      (C.sha256Hash (msg.ciphertext ++ msg.nonce ++ msg.ephemeralPublicKey)).take 16) :
    decryptMessage C reg sid msg = (Except.error "MAC verification failed", reg) := by
  unfold decryptMessage
  rw [h]
  have hct : constantTimeEqual msg.mac
      ((C.sha256Hash (msg.ciphertext ++ msg.nonce ++ msg.ephemeralPublicKey)).take 16) = false := by
    by_contra hc
    exact hmac ((constantTimeEqual_eq_true_iff _ _).mp (by simpa using hc))
  simp only [hct, Bool.false_eq_true, if_false]

theorem decryptMessage_of_aead_fail (C : CryptoPrims) (reg : Registry) (sid : String)
    (s : SecureSessionState) (msg : EncryptedMessage)
    (h : lookupSession reg sid = some s)
    (hmac : msg.mac =
      (C.sha256Hash (msg.ciphertext ++ msg.nonce ++ msg.ephemeralPublicKey)).take 16)
    (hdec : C.chachaDecrypt (deriveKeys C s.receivingChainKey [0] "MessageKey" 32 1)
      msg.nonce msg.ciphertext = none) :
    decryptMessage C reg sid msg =
      (Except.error "Decryption failed",
       setSession reg sid
        { s with
          receivingChainKey := deriveKeys C s.receivingChainKey [0] "ChainKeyNext" 32 1 }) := by
  unfold decryptMessage
  rw [h]
  have hct : constantTimeEqual msg.mac
      ((C.sha256Hash (msg.ciphertext ++ msg.nonce ++ msg.ephemeralPublicKey)).take 16) = true :=
    (constantTimeEqual_eq_true_iff _ _).mpr hmac
  simp only [hct, eq_self_iff_true, if_true, hdec]

theorem performDHRatchet_of_lookup (C : CryptoPrims) (reg : Registry) (sid : String)
    (s : SecureSessionState) (theirNewKey newSecret : Bytes)
    (h : lookupSession reg sid = some s) :
    performDHRatchet C reg sid theirNewKey newSecret =
      (Except.ok (),
       setSession reg sid
        { s with
          rootKey := deriveKeys C s.rootKey
            (C.x25519SharedSecret newSecret theirNewKey) "RootKeyNext" 32 1
          sendingChainKey := deriveKeys C
            (deriveKeys C s.rootKey
              (C.x25519SharedSecret newSecret theirNewKey) "RootKeyNext" 32 1)
            (zeros 32) "ChainKey" 32 1
          sendingRatchetKey := generateKeyPair C newSecret
          receivingRatchetKey := some theirNewKey
          messageNumber := 0 }) := by
  unfold performDHRatchet
  rw [h]
  rfl

/-- A concrete instantiation of the primitive parameters, used to exercise
the parametric theorems on explicit inputs.  `hkdfSha256` is a
length-prefixed pairing of key material and salt (hence injective in the
pair), and the AEAD embeds a length-prefixed copy of its key so that
decryption under any other key fails — discharging, at concrete points, the
injectivity and key-binding hypotheses the real primitives are assumed to
satisfy. -/
def toyPrims : CryptoPrims where
  hkdfSha256 := fun ikm salt _ _ => ikm.length :: (ikm ++ salt)
  sha256Hash := fun l => l.length :: l
  x25519PublicKey := fun sk => 7 :: sk
  x25519SharedSecret := fun sk pk => 9 :: (sk ++ pk)
  chachaEncrypt := fun k _ p => k.length :: (k ++ p)
  chachaDecrypt := fun k _ c =>
    if c.take (k.length + 1) = k.length :: k then some (c.drop (k.length + 1)) else none
  utf8Encode := fun s => s.toList.map Char.toNat
  utf8Decode := fun _ => ""

theorem toyPrims_hkdf_inj (ikm₁ salt₁ ikm₂ salt₂ : Bytes) (info : String) (len : Nat)
    (h : toyPrims.hkdfSha256 ikm₁ salt₁ info len = toyPrims.hkdfSha256 ikm₂ salt₂ info len) :
    ikm₁ = ikm₂ ∧ salt₁ = salt₂ := by
  have h' : ikm₁.length :: (ikm₁ ++ salt₁) = ikm₂.length :: (ikm₂ ++ salt₂) := h
  rw [List.cons_eq_cons] at h'
  exact List.append_inj h'.2 h'.1

theorem toyPrims_aead_binding (k k' n p : Bytes) (hne : k ≠ k') :
    toyPrims.chachaDecrypt k' n (toyPrims.chachaEncrypt k n p) = none := by
  have hd : toyPrims.chachaDecrypt k' n (toyPrims.chachaEncrypt k n p) =
      (if (k.length :: (k ++ p)).take (k'.length + 1) = k'.length :: k' then
        some ((k.length :: (k ++ p)).drop (k'.length + 1)) else none) := rfl
  rw [hd, if_neg]
  intro hcontra
  rw [List.take_succ_cons, List.cons_eq_cons] at hcontra
  obtain ⟨hlen, htail⟩ := hcontra
  rw [← hlen, List.take_left] at htail
  exact hne htail

/-- C7: `constantTimeEqual(a, b)` returns `true` iff `a` and `b` are equal
byte sequences (same length and equal at every index); in particular it
returns `false` whenever the lengths differ, and `true` on two empty
arrays. -/
theorem C7_constantTimeEqual_spec (a b : Bytes) :
    (constantTimeEqual a b = true ↔ a = b) ∧
    (a.length ≠ b.length → constantTimeEqual a b = false) ∧
    constantTimeEqual [] [] = true := by
  refine ⟨constantTimeEqual_eq_true_iff a b, ?_, rfl⟩
  intro h
  unfold constantTimeEqual
  simp [h]

/-- Witness for C7 at concrete inputs: equal arrays compare `true`,
length-mismatched arrays compare `false`. -/
theorem C7_constantTimeEqual_spec_witness :
    constantTimeEqual [3, 4] [3, 4] = true ∧ constantTimeEqual [1] [2, 3] = false :=
  ⟨(C7_constantTimeEqual_spec [3, 4] [3, 4]).1.mpr rfl,
   (C7_constantTimeEqual_spec [1] [2, 3]).2.1 (by decide)⟩

/-- C8: `deriveKeys` is deterministic — any two invocations with identical
`(inputKeyMaterial, salt, info, length, version)` return identical bytes —
and the output is exactly the HKDF-SHA256 of the input key material and salt
under the versioned info string `"Gizli-v<version>-<info>"`. -/
theorem C8_deriveKeys_deterministic (C : CryptoPrims) (ikm₁ salt₁ ikm₂ salt₂ : Bytes)
    (info₁ info₂ : String) (len₁ len₂ v₁ v₂ : Nat) :
    (ikm₁ = ikm₂ → salt₁ = salt₂ → info₁ = info₂ → len₁ = len₂ → v₁ = v₂ →
      deriveKeys C ikm₁ salt₁ info₁ len₁ v₁ = deriveKeys C ikm₂ salt₂ info₂ len₂ v₂) ∧
    deriveKeys C ikm₁ salt₁ info₁ len₁ v₁ =
      C.hkdfSha256 ikm₁ salt₁ ("Gizli-v" ++ toString v₁ ++ "-" ++ info₁) len₁ :=
  ⟨fun h1 h2 h3 h4 h5 => by rw [h1, h2, h3, h4, h5], rfl⟩

/-- Witness for C8 at concrete inputs: version 1 with label `MessageKey`
yields the info string `"Gizli-v1-MessageKey"`, and repeating the invocation
repeats the output. -/
theorem C8_deriveKeys_deterministic_witness :
    deriveKeys toyPrims [1] [2] "MessageKey" 32 1 =
      toyPrims.hkdfSha256 [1] [2] "Gizli-v1-MessageKey" 32 ∧
    deriveKeys toyPrims [1] [2] "MessageKey" 32 1 =
      deriveKeys toyPrims [1] [2] "MessageKey" 32 1 := by
  constructor
  · rw [(C8_deriveKeys_deterministic toyPrims [1] [2] [1] [2] "MessageKey" "MessageKey"
      32 32 1 1).2]
    rfl
  · exact (C8_deriveKeys_deterministic toyPrims [1] [2] [1] [2] "MessageKey" "MessageKey"
      32 32 1 1).1 rfl rfl rfl rfl rfl

/-- C6: `deriveSharedSecret` — with the external `x25519.getSharedSecret`
modelled from the spec as `x25519GetSharedSecretChecked` — fails with
`InvalidPublicKeyError` exactly when the raw X25519 scalar-multiplication
output is the all-zero 32-byte string (low-order/invalid peer point), and a
successful result is never all-zero. -/
theorem C6_deriveSharedSecret_rejects_all_zero (raw : Bytes → Bytes → Bytes)
    (sk pk : Bytes) :
    (deriveSharedSecretChecked raw sk pk = Except.error "InvalidPublicKeyError" ↔
      raw sk pk = zeros 32) ∧
    (∀ out, deriveSharedSecretChecked raw sk pk = Except.ok out → out ≠ zeros 32) := by
  constructor
  · unfold deriveSharedSecretChecked x25519GetSharedSecretChecked
    by_cases h : raw sk pk = zeros 32
    · simp [h]
    · simp [h]
  · intro out hout hzero
    unfold deriveSharedSecretChecked x25519GetSharedSecretChecked at hout
    by_cases h : raw sk pk = zeros 32
    · rw [if_pos h] at hout
      exact Except.noConfusion hout
    · rw [if_neg h] at hout
      exact h ((Except.ok.inj hout).trans hzero)

/-- Witness for C6: a raw scalar multiplication returning all zeros is
rejected with `InvalidPublicKeyError`, and a successful output (here `[1]`)
is not the all-zero string. -/
theorem C6_deriveSharedSecret_rejects_all_zero_witness :
    deriveSharedSecretChecked (fun _ _ => zeros 32) [] [] =
      Except.error "InvalidPublicKeyError" ∧
    ([1] : Bytes) ≠ zeros 32 :=
  ⟨(C6_deriveSharedSecret_rejects_all_zero (fun _ _ => zeros 32) [] []).1.mpr rfl,
   (C6_deriveSharedSecret_rejects_all_zero (fun _ _ => ([1] : Bytes)) [] []).2 [1] rfl⟩

/-- A concrete session state used for counterexamples and witnesses. -/
def sampleState : SecureSessionState where
  sendingChainKey := zeros 32
  receivingChainKey := zeros 32
  rootKey := zeros 32
  sendingRatchetKey := { publicKey := [1], secretKey := [2] }
  receivingRatchetKey := none
  messageNumber := 0
  previousChainLength := 0

/-- C5 counterexample: after `clearSession("s1")` the registry no longer holds
the session, so `encryptMessage` and `decryptMessage` on `"s1"` fail with the
generic `'Session not found'` error — not with `SessionClearedError`, which
does not exist anywhere in the code. -/
theorem C5_sessionClearedError_counterexample :
    (encryptMessage toyPrims (clearSession [("s1", sampleState)] "s1") "s1" "hi" [3] [4]).1 ≠
      Except.error "SessionClearedError" ∧
    (encryptMessage toyPrims (clearSession [("s1", sampleState)] "s1") "s1" "hi" [3] [4]).1 =
      Except.error "Session not found" ∧
    (decryptMessage toyPrims (clearSession [("s1", sampleState)] "s1") "s1"
        { ciphertext := [], nonce := [], ephemeralPublicKey := [], mac := [] }).1 =
      Except.error "Session not found" := by
  have h : lookupSession (clearSession [("s1", sampleState)] "s1") "s1" = none :=
    lookupSession_removeSession_self _ _
  refine ⟨?_, ?_, ?_⟩
  · unfold encryptMessage
    rw [h]
    intro hc
    exact absurd (Except.error.inj hc) (by decide)
  · unfold encryptMessage
    rw [h]
  · unfold decryptMessage
    rw [h]

/-- C5 (amended): for every session identifier on which `clearSession` has
been called, any subsequent `encryptMessage` or `decryptMessage` on that
identifier fails — with the generic `'Session not found'` error, since
clearing removes the entry from the registry and the code defines no separate
`SessionClearedError` (a cleared session is indistinguishable from an unknown
one). -/
theorem C5_cleared_session_ops_fail (C : CryptoPrims) (reg : Registry) (sid : String)
    (pt : String) (e n : Bytes) (msg : EncryptedMessage) :
    (encryptMessage C (clearSession reg sid) sid pt e n).1 =
      Except.error "Session not found" ∧
    (decryptMessage C (clearSession reg sid) sid msg).1 =
      Except.error "Session not found" := by
  have h : lookupSession (clearSession reg sid) sid = none :=
    lookupSession_removeSession_self reg sid
  constructor
  · unfold encryptMessage
    rw [h]
  · unfold decryptMessage
    rw [h]

/-- C4 counterexample: with two live sessions and `secureZero` throwing on the
first one, `emergencyPanic` raises (the wipe failure propagates — neither
`emergencyPanic` nor `clearSession` has a try/catch) and the registry is left
with both sessions still registered, contradicting the claim that it always
catches wipe failures and terminates normally with an empty registry. -/
theorem C4_panic_raises_counterexample :
    (emergencyPanic (fun sessionId => sessionId == "s1")
        [("s1", sampleState), ("s2", sampleState)]).1 = Except.error "memzero failed" ∧
    (emergencyPanic (fun sessionId => sessionId == "s1")
        [("s1", sampleState), ("s2", sampleState)]).2 =
      [("s1", sampleState), ("s2", sampleState)] := by
  constructor
  · rfl
  · rfl

/-- C4 (amended): `emergencyPanic` terminates normally with an empty session
registry provided no individual wipe throws; when a wipe does throw, the
exception propagates out of `emergencyPanic` and the sessions not yet cleared
are retained. -/
theorem C4_panic_clears_all_when_no_wipe_throws (wipeThrows : String → Bool)
    (reg : Registry) (h : ∀ sessionId, wipeThrows sessionId = false) :
    emergencyPanic wipeThrows reg = (Except.ok (), []) := by
  unfold emergencyPanic
  generalize reg.map Prod.fst = ids
  induction ids generalizing reg with
  | nil => rfl
  | cons sid rest ih =>
    unfold panicLoop clearSessionF
    cases hl : lookupSession reg sid with
    | none => exact ih reg
    | some st =>
      rw [h sid]
      exact ih (removeSession reg sid)

/-- Witness for C4 (amended): with no throwing wipe, a one-session registry is
fully cleared and no error is raised. -/
theorem C4_panic_clears_all_witness :
    emergencyPanic (fun _ => false) [("s1", sampleState)] = (Except.ok (), []) :=
  C4_panic_clears_all_when_no_wipe_throws (fun _ => false) [("s1", sampleState)]
    (fun _ => rfl)

/-- C3: for every live session, `performDHRatchet(sessionId, K)` — with fresh
ratchet secret `newSecret` — sets `rootKey` to
`deriveKeys(old rootKey, DH(newSecret, K), 'RootKeyNext')`, sets
`sendingChainKey` to `deriveKeys(new rootKey, 32 zero bytes, 'ChainKey')`,
replaces the sending ratchet key pair by the freshly generated one, sets
`receivingRatchetKey` to `K`, and resets `messageNumber` to 0. -/
theorem C3_performDHRatchet_spec (C : CryptoPrims) (reg : Registry) (sid : String)
    (s : SecureSessionState) (K newSecret : Bytes)
    (h : lookupSession reg sid = some s) :
    ∃ s', lookupSession (performDHRatchet C reg sid K newSecret).2 sid = some s' ∧
      s'.rootKey =
        deriveKeys C s.rootKey (deriveSharedSecret C newSecret K) "RootKeyNext" 32 1 ∧
      s'.sendingChainKey = deriveKeys C s'.rootKey (zeros 32) "ChainKey" 32 1 ∧
      s'.sendingRatchetKey = generateKeyPair C newSecret ∧
      s'.receivingRatchetKey = some K ∧
      s'.messageNumber = 0 := by
  rw [performDHRatchet_of_lookup C reg sid s K newSecret h]
  exact ⟨_, lookupSession_setSession_self _ _ _, rfl, rfl, rfl, rfl, rfl⟩

/-- Witness for C3 at concrete inputs. -/
theorem C3_performDHRatchet_spec_witness :
    ∃ s', lookupSession
        (performDHRatchet toyPrims [("s1", sampleState)] "s1" [5] [6]).2 "s1" = some s' ∧
      s'.rootKey = deriveKeys toyPrims sampleState.rootKey
        (deriveSharedSecret toyPrims [6] [5]) "RootKeyNext" 32 1 ∧
      s'.sendingChainKey = deriveKeys toyPrims s'.rootKey (zeros 32) "ChainKey" 32 1 ∧
      s'.sendingRatchetKey = generateKeyPair toyPrims [6] ∧
      s'.receivingRatchetKey = some [5] ∧
      s'.messageNumber = 0 :=
  C3_performDHRatchet_spec toyPrims [("s1", sampleState)] "s1" sampleState [5] [6]
    (by simp [lookupSession])

/-- C9: for every live session and every message whose `mac` field differs
from the first 16 bytes of
`sha256(ciphertext ++ nonce ++ ephemeralPublicKey)`, `decryptMessage` throws
`'MAC verification failed'` and returns the registry unchanged — the
receiving chain key is not advanced and no message key is derived, because
the MAC check precedes all key derivation. -/
theorem C9_mac_failure_leaves_state_unchanged (C : CryptoPrims) (reg : Registry)
    (sid : String) (s : SecureSessionState) (msg : EncryptedMessage)
    (h : lookupSession reg sid = some s)
    (hmac : msg.mac ≠
      (C.sha256Hash (msg.ciphertext ++ msg.nonce ++ msg.ephemeralPublicKey)).take 16) :
    decryptMessage C reg sid msg = (Except.error "MAC verification failed", reg) :=
  decryptMessage_of_mac_mismatch C reg sid s msg h hmac

/-- Witness for C9 at concrete inputs: an empty `mac` never matches the
truncated hash, and the one-session registry comes back unchanged. -/
theorem C9_mac_failure_witness :
    decryptMessage toyPrims [("s1", sampleState)] "s1"
        { ciphertext := [1], nonce := [2], ephemeralPublicKey := [3], mac := [] } =
      (Except.error "MAC verification failed", [("s1", sampleState)]) :=
  C9_mac_failure_leaves_state_unchanged toyPrims [("s1", sampleState)] "s1" sampleState
    { ciphertext := [1], nonce := [2], ephemeralPublicKey := [3], mac := [] }
    (by simp [lookupSession]) (by decide)

/-- C10: a session initialized with the peer's ratchet public key (responder)
stores the 32-zero-byte placeholder as `sendingChainKey`, and an immediate
`encryptMessage` on it succeeds, returning an `EncryptedMessage` whose
ciphertext is encrypted under the message key derived from the all-zero
placeholder chain key. -/
theorem C10_responder_encrypts_with_zero_placeholder (C : CryptoPrims) (reg : Registry)
    (sid : String) (S : Bytes) (kp : KeyPair) (theirKey : Bytes) (pt : String)
    (e n : Bytes) :
    ∃ s₀, lookupSession (initializeSession C reg sid S kp (some theirKey)).2 sid = some s₀ ∧
      s₀.sendingChainKey = zeros 32 ∧
      (encryptMessage C (initializeSession C reg sid S kp (some theirKey)).2 sid pt e n).1 =
        Except.ok
          { ciphertext := C.chachaEncrypt (deriveKeys C (zeros 32) [0] "MessageKey" 32 1) n
              (C.utf8Encode pt)
            nonce := n
            ephemeralPublicKey := C.x25519PublicKey e
            mac := (C.sha256Hash
              (C.chachaEncrypt (deriveKeys C (zeros 32) [0] "MessageKey" 32 1) n
                (C.utf8Encode pt) ++ n ++ C.x25519PublicKey e)).take 16 } := by
  dsimp only [initializeSession_some]
  refine ⟨_, lookupSession_setSession_self _ _ _, rfl, ?_⟩
  rw [encryptMessage_of_lookup C _ sid (responderState C S kp theirKey) pt e n
    (lookupSession_setSession_self _ _ _)]
  rfl

/-- C2: `encryptMessage` on a live session unconditionally replaces
`sendingChainKey` by `deriveKeys(old sendingChainKey, one zero byte,
'ChainKeyNext')` and increments `messageNumber` by exactly 1 before
encrypting; consequently — for primitives whose KDF is injective in its input
key material and does not fix this chain key — the message key a second
`encryptMessage` call would derive differs from the first one. -/
theorem C2_encrypt_advances_chain (C : CryptoPrims) (reg : Registry) (sid : String)
    (s : SecureSessionState) (pt : String) (e n : Bytes)
    (h : lookupSession reg sid = some s)
    (hInj : ∀ ikm₁ salt₁ ikm₂ salt₂ info len,
      C.hkdfSha256 ikm₁ salt₁ info len = C.hkdfSha256 ikm₂ salt₂ info len →
      ikm₁ = ikm₂ ∧ salt₁ = salt₂)
    (hfix : deriveKeys C s.sendingChainKey [0] "ChainKeyNext" 32 1 ≠ s.sendingChainKey) :
    ∃ s', lookupSession (encryptMessage C reg sid pt e n).2 sid = some s' ∧
      s'.sendingChainKey = deriveKeys C s.sendingChainKey [0] "ChainKeyNext" 32 1 ∧
      s'.messageNumber = s.messageNumber + 1 ∧
      encryptionMessageKey C s' ≠ encryptionMessageKey C s := by
  rw [encryptMessage_of_lookup C reg sid s pt e n h]
  refine ⟨_, lookupSession_setSession_self _ _ _, rfl, rfl, ?_⟩
  intro hk
  have hk' : C.hkdfSha256 (deriveKeys C s.sendingChainKey [0] "ChainKeyNext" 32 1) [0]
      ("Gizli-v" ++ toString 1 ++ "-" ++ "MessageKey") 32 =
      C.hkdfSha256 s.sendingChainKey [0]
        ("Gizli-v" ++ toString 1 ++ "-" ++ "MessageKey") 32 := hk
  exact hfix (hInj _ _ _ _ _ _ hk').1

/-- Witness for C2 at concrete inputs with the toy primitives. -/
theorem C2_encrypt_advances_chain_witness :
    ∃ s', lookupSession
        (encryptMessage toyPrims [("s1", sampleState)] "s1" "m" [1] [2]).2 "s1" = some s' ∧
      s'.sendingChainKey =
        deriveKeys toyPrims sampleState.sendingChainKey [0] "ChainKeyNext" 32 1 ∧
      s'.messageNumber = sampleState.messageNumber + 1 ∧
      encryptionMessageKey toyPrims s' ≠ encryptionMessageKey toyPrims sampleState :=
  C2_encrypt_advances_chain toyPrims [("s1", sampleState)] "s1" sampleState "m" [1] [2]
    (by simp [lookupSession])
    (fun ikm₁ salt₁ ikm₂ salt₂ info len hk => toyPrims_hkdf_inj ikm₁ salt₁ ikm₂ salt₂ info len hk)
    (by decide)

/-- C1 (refuted — code bug): the claimed round trip fails on this code.  For
Alice initialized as initiator (`initializeSession(S, Ka)`, no peer key) and
Bob initialized as responder (`initializeSession(S, Kb, Ka.publicKey)`),
Alice's `sendingChainKey` is `deriveKeys(rootKey, 32 zero bytes, 'ChainKey')`
while Bob's `receivingChainKey` is
`deriveKeys(rootKey, DH(Kb.secretKey, Ka.publicKey), 'ChainKey')`.  For any
primitives whose KDF is injective in (input key material, salt), whose AEAD
rejects ciphertexts under a different key, and whose DH output here is not 32
zero bytes, the two message keys therefore differ and
`decryptMessage(Bob, encryptMessage(Alice, P))` throws the AEAD decryption
error instead of returning `P`. -/
theorem C1_roundtrip_fails (C : CryptoPrims) (reg : Registry) (sidA sidB : String)
    (S : Bytes) (Ka Kb : KeyPair) (P : String) (e n : Bytes) (msg : EncryptedMessage)
    (hInj : ∀ ikm₁ salt₁ ikm₂ salt₂ info len,
      C.hkdfSha256 ikm₁ salt₁ info len = C.hkdfSha256 ikm₂ salt₂ info len →
      ikm₁ = ikm₂ ∧ salt₁ = salt₂)
    (hAEAD : ∀ k k' n' p, k ≠ k' → C.chachaDecrypt k' n' (C.chachaEncrypt k n' p) = none)
    (hdh : C.x25519SharedSecret Kb.secretKey Ka.publicKey ≠ zeros 32)
    (hsid : sidB ≠ sidA)
    (hmsg : (encryptMessage C
        (initializeSession C (initializeSession C reg sidA S Ka none).2 sidB S Kb
          (some Ka.publicKey)).2 sidA P e n).1 = Except.ok msg) :
    (decryptMessage C (encryptMessage C
        (initializeSession C (initializeSession C reg sidA S Ka none).2 sidB S Kb
          (some Ka.publicKey)).2 sidA P e n).2 sidB msg).1 =
      Except.error "Decryption failed" := by
  have hAB : sidA ≠ sidB := fun hc => hsid hc.symm
  dsimp only [initializeSession_none, initializeSession_some] at hmsg ⊢
  have hlookA : lookupSession
      (setSession (setSession reg sidA (initiatorState C S Ka)) sidB
        (responderState C S Kb Ka.publicKey)) sidA = some (initiatorState C S Ka) := by
    rw [lookupSession_setSession_ne _ _ _ _ hAB]
    exact lookupSession_setSession_self _ _ _
  rw [encryptMessage_of_lookup C _ sidA (initiatorState C S Ka) P e n hlookA] at hmsg ⊢
  dsimp only at hmsg ⊢
  have hm : msg =
      { ciphertext := C.chachaEncrypt (encryptionMessageKey C (initiatorState C S Ka)) n
          (C.utf8Encode P)
        nonce := n
        ephemeralPublicKey := C.x25519PublicKey e
        mac := (C.sha256Hash
          (C.chachaEncrypt (encryptionMessageKey C (initiatorState C S Ka)) n
            (C.utf8Encode P) ++ n ++ C.x25519PublicKey e)).take 16 } :=
    (Except.ok.inj hmsg).symm
  have hck : (initiatorState C S Ka).sendingChainKey ≠
      (responderState C S Kb Ka.publicKey).receivingChainKey := by
    intro hc
    have hc' : C.hkdfSha256 (deriveKeys C S (zeros 32) "RootKey" 32 1) (zeros 32)
        ("Gizli-v" ++ toString 1 ++ "-" ++ "ChainKey") 32 =
        C.hkdfSha256 (deriveKeys C S (zeros 32) "RootKey" 32 1)
          (C.x25519SharedSecret Kb.secretKey Ka.publicKey)
          ("Gizli-v" ++ toString 1 ++ "-" ++ "ChainKey") 32 := hc
    exact hdh ((hInj _ _ _ _ _ _ hc').2).symm
  have hmk : encryptionMessageKey C (initiatorState C S Ka) ≠
      deriveKeys C (responderState C S Kb Ka.publicKey).receivingChainKey [0]
        "MessageKey" 32 1 := by
    intro hc
    have hc' : C.hkdfSha256 (initiatorState C S Ka).sendingChainKey [0]
        ("Gizli-v" ++ toString 1 ++ "-" ++ "MessageKey") 32 =
        C.hkdfSha256 (responderState C S Kb Ka.publicKey).receivingChainKey [0]
          ("Gizli-v" ++ toString 1 ++ "-" ++ "MessageKey") 32 := hc
    exact hck (hInj _ _ _ _ _ _ hc').1
  have hlookB : lookupSession
      (setSession (setSession (setSession reg sidA (initiatorState C S Ka)) sidB
        (responderState C S Kb Ka.publicKey)) sidA
        { initiatorState C S Ka with
          sendingChainKey :=
            deriveKeys C (initiatorState C S Ka).sendingChainKey [0] "ChainKeyNext" 32 1
          messageNumber := (initiatorState C S Ka).messageNumber + 1 }) sidB =
      some (responderState C S Kb Ka.publicKey) := by
    rw [lookupSession_setSession_ne _ _ _ _ hsid]
    exact lookupSession_setSession_self _ _ _
  have hmac : msg.mac =
      (C.sha256Hash (msg.ciphertext ++ msg.nonce ++ msg.ephemeralPublicKey)).take 16 := by
    rw [hm]
  have hdec : C.chachaDecrypt
      (deriveKeys C (responderState C S Kb Ka.publicKey).receivingChainKey [0]
        "MessageKey" 32 1) msg.nonce msg.ciphertext = none := by
    rw [hm]
    exact hAEAD _ _ _ _ hmk
  rw [decryptMessage_of_aead_fail C _ sidB (responderState C S Kb Ka.publicKey) msg
    hlookB hmac hdec]

/-- The concrete encryption result of the C1 scenario under the toy
primitives: Alice (session `"a"`) initialized as initiator, Bob (session
`"b"`) as responder with Alice's ratchet public key, Alice encrypts
`"hi"`. -/
def cw1Enc : Except String EncryptedMessage × Registry :=
  encryptMessage toyPrims
    (initializeSession toyPrims
      (initializeSession toyPrims [] "a" [1] { publicKey := [2], secretKey := [3] } none).2
      "b" [1] { publicKey := [4], secretKey := [5] } (some [2])).2
    "a" "hi" [6] [8]

/-- The message produced in `cw1Enc` (its successful payload). -/
def cw1Msg : EncryptedMessage :=
  match cw1Enc.1 with
  | Except.ok m => m
  | Except.error _ => { ciphertext := [], nonce := [], ephemeralPublicKey := [], mac := [] }

/-- Witness for C1 at concrete inputs: Bob cannot decrypt Alice's very first
message — decryption fails with the AEAD error. -/
theorem C1_roundtrip_fails_witness :
    (decryptMessage toyPrims cw1Enc.2 "b" cw1Msg).1 = Except.error "Decryption failed" :=
  C1_roundtrip_fails toyPrims [] "a" "b" [1] { publicKey := [2], secretKey := [3] }
    { publicKey := [4], secretKey := [5] } "hi" [6] [8] cw1Msg
    (fun ikm₁ salt₁ ikm₂ salt₂ info len hk =>
      toyPrims_hkdf_inj ikm₁ salt₁ ikm₂ salt₂ info len hk)
    (fun k k' n' p hne => toyPrims_aead_binding k k' n' p hne)
    (by decide) (by decide) rfl

end Gizli
